import Mathlib

/-!
# Shallow embedding of the quote-request server (`src/server.js`)

The server is a CRUD resource manager over a single JSON file of quote
requests.  We embed:

* records (`Quote`) — ISO timestamp strings are abstracted as `Nat`
  instants (ISO-8601 parses monotonically to milliseconds, so order and
  equality are preserved);
* the persisted store (`Disk`) — the file content together with two
  environment flags saying whether the underlying `readJsonSync` /
  `writeJsonSync` calls fail (the `catch` branches at lines 117–134);
* the validation chain (`validateQuote`), with the external
  `validator.js` predicates `isEmail` / `isMobilePhone` and the
  `normalizeEmail` sanitizer kept abstract as function parameters;
* the five route handlers that the claims are about.
-/

/-- A stored quote-request record (the object built at
`server.js:191-204`). -/
structure Quote where
  id : String
  name : String
  email : String
  phone : String
  company : String
  projectType : String
  budget : String
  timeline : String
  description : String
  status : String
  createdAt : Nat
  updatedAt : Nat
  deriving Repr, DecidableEq

/-- The persisted store: the JSON array on disk plus flags describing
whether the underlying filesystem read/write fails (the environment of
the `try`/`catch` blocks in `readQuotes`/`writeQuotes`). -/
structure Disk where
  content : List Quote
  readFails : Bool
  writeFails : Bool
  deriving Repr, DecidableEq

/-- `fs.readJsonSync(DATA_FILE)`: either the parsed array or a thrown
error, depending on the environment. -/
def fsReadJson (d : Disk) : Except String (List Quote) :=
  if d.readFails then .error "read error" else .ok d.content

/-- `readQuotes` (`server.js:117-124`): `try { return readJsonSync }
catch { return [] }`. -/
def readQuotes (d : Disk) : List Quote :=
  match fsReadJson d with
  | .ok qs => qs
  | .error _ => []

/-- `writeQuotes` (`server.js:126-134`): `try { writeJsonSync; return
true } catch { return false }`.  Returns the success flag and the disk
after the call. -/
def writeQuotes (d : Disk) (qs : List Quote) : Bool × Disk :=
  if d.writeFails then (false, d) else (true, { d with content := qs })

/-- The character class `\s` of a JavaScript regex (WhiteSpace ∪
LineTerminator). -/
def jsWhitespace (c : Char) : Bool :=
  c == ' ' || c == '\t' || c == '\n' || c.val == 11 || c.val == 12 || c == '\r' ||
  c.val == 0xa0 || c.val == 0x1680 || (0x2000 ≤ c.val && c.val ≤ 0x200a) ||
  c.val == 0x2028 || c.val == 0x2029 || c.val == 0x202f || c.val == 0x205f ||
  c.val == 0x3000 || c.val == 0xfeff

/-- JavaScript `String.prototype.trim` / the express-validator `.trim()`
sanitizer: strip `jsWhitespace` from both ends. -/
def jsTrim (s : String) : String :=
  String.mk ((((s.data.dropWhile jsWhitespace).reverse).dropWhile jsWhitespace).reverse)

/-- The closed `projectType` enumeration (`server.js:160`). -/
def projectTypes : List String := ["website", "ecommerce", "webapp", "mobile", "other"]

/-- The closed `budget` enumeration (`server.js:164`). -/
def budgets : List String := ["under-5k", "5k-10k", "10k-25k", "25k-50k", "over-50k"]

/-- The closed `timeline` enumeration (`server.js:168`). -/
def timelines : List String := ["asap", "1-month", "2-3-months", "3-6-months", "flexible"]

/-- The closed status enumeration (`server.js:283`). -/
def validStatuses : List String :=
  ["new", "reviewed", "contacted", "quoted", "accepted", "rejected"]

/-- A raw submission body (`req.body` at the create endpoint).  The
optional `company` is modelled as a string, with `""` standing for an
absent field — JavaScript's `company || ''` identifies the two. -/
structure Submission where
  name : String
  email : String
  phone : String
  company : String
  projectType : String
  budget : String
  timeline : String
  description : String
  deriving Repr, DecidableEq

/-- One entry of `errors.array()`: the offending field and message. -/
structure Violation where
  field : String
  msg : String
  deriving Repr, DecidableEq

/-- The `name` length rule (`.isLength({min:2,max:100})`,
`server.js:140`), applied to the trimmed value. -/
def nameLenOk (n : String) : Bool :=
  2 ≤ (jsTrim n).length && (jsTrim n).length ≤ 100

/-- The `name` character rule (`.matches(/^[a-zA-Z\s]+$/)`,
`server.js:142`): nonempty after trim and every character an ASCII
letter or `\s` whitespace. -/
def nameCharsOk (n : String) : Bool :=
  (jsTrim n) != "" && (jsTrim n).data.all (fun c => c.isAlpha || jsWhitespace c)

/-- The `description` length rule (`.isLength({min:10,max:1000})`,
`server.js:172`). -/
def descOk (s : String) : Bool :=
  10 ≤ (jsTrim s).length && (jsTrim s).length ≤ 1000

/-- `validateQuote` (`server.js:137-174`): runs every check in chain
order and accumulates field-level errors; empty list means the
submission passes.  The external `validator.js` predicates for email and
phone shape are abstract parameters. -/
def validateQuote (isEmail : String → Bool) (isMobilePhone : String → Bool)
    (s : Submission) : List Violation :=
  (if nameLenOk s.name then [] else
    [⟨"name", "Name must be between 2 and 100 characters"⟩]) ++
  (if nameCharsOk s.name then [] else
    [⟨"name", "Name can only contain letters and spaces"⟩]) ++
  (if isEmail (jsTrim s.email) then [] else
    [⟨"email", "Please provide a valid email address"⟩]) ++
  (if isMobilePhone (jsTrim s.phone) then [] else
    [⟨"phone", "Please provide a valid phone number"⟩]) ++
  (if (jsTrim s.company).length ≤ 100 then [] else
    [⟨"company", "Company name must be less than 100 characters"⟩]) ++
  (if projectTypes.contains (jsTrim s.projectType) then [] else
    [⟨"projectType", "Please select a valid project type"⟩]) ++
  (if budgets.contains (jsTrim s.budget) then [] else
    [⟨"budget", "Please select a valid budget range"⟩]) ++
  (if timelines.contains (jsTrim s.timeline) then [] else
    [⟨"timeline", "Please select a valid timeline"⟩]) ++
  (if descOk s.description then [] else
    [⟨"description", "Description must be between 10 and 1000 characters"⟩])

/-- Response of `POST /api/quotes`. -/
inductive CreateResp where
  | validationFailed (errors : List Violation)   -- 400
  | created (id : String)                        -- 201
  | writeError                                   -- 500
  deriving Repr, DecidableEq

/-- The record built at `server.js:191-204` from the sanitized body.
The two `new Date().toISOString()` calls of one request are modelled as
a single instant `now`. -/
def mkQuote (normEmail : String → String) (s : Submission) (newId : String)
    (now : Nat) : Quote :=
  { id := newId
    name := jsTrim s.name
    email := normEmail (jsTrim s.email)
    phone := jsTrim s.phone
    company := if jsTrim s.company == "" then "" else jsTrim s.company
    projectType := jsTrim s.projectType
    budget := jsTrim s.budget
    timeline := jsTrim s.timeline
    description := jsTrim s.description
    status := "new"
    createdAt := now
    updatedAt := now }

/-- `app.post('/api/quotes')` (`server.js:179-224`): validate, build the
record, append, persist.  `newId` is the `uuidv4()` draw and `now` the
clock reading. -/
def postQuote (isEmail : String → Bool) (normEmail : String → String)
    (isMobilePhone : String → Bool) (d : Disk) (s : Submission)
    (newId : String) (now : Nat) : CreateResp × Disk :=
  let errors := validateQuote isEmail isMobilePhone s
  if errors.isEmpty then
    let quotes := readQuotes d ++ [mkQuote normEmail s newId now]
    match writeQuotes d quotes with
    | (true, d') => (.created newId, d')
    | (false, d') => (.writeError, d')
  else
    (.validationFailed errors, d)

/-- `app.get('/api/quotes/:id')` (`server.js:262-277`):
`quotes.find(q => q.id === id)`; `none` is the 404 branch. -/
def getQuote (d : Disk) (qid : String) : Option Quote :=
  (readQuotes d).find? (fun q => q.id == qid)

/-- Response of `PATCH /api/quotes/:id/status`. -/
inductive UpdateResp where
  | invalidStatus            -- 400
  | notFound                 -- 404
  | updated (q : Quote)      -- 200, `data: quotes[quoteIndex]`
  | writeError               -- 500
  deriving Repr, DecidableEq

/-- The in-place mutation `quotes[quoteIndex].status = status;
quotes[quoteIndex].updatedAt = ...` after `findIndex` (`server.js:291,
300-301`): replace the first record whose id matches, leave the rest. -/
def setStatusFirst (qid st : String) (now : Nat) : List Quote → List Quote
  | [] => []
  | q :: qs =>
    if q.id == qid then { q with status := st, updatedAt := now } :: qs
    else q :: setStatusFirst qid st now qs

/-- `app.patch('/api/quotes/:id/status')` (`server.js:280-315`):
enum check, `findIndex`, mutate status/updatedAt, persist. -/
def updateStatus (d : Disk) (qid st : String) (now : Nat) : UpdateResp × Disk :=
  if validStatuses.contains st then
    let quotes := readQuotes d
    match quotes.find? (fun q => q.id == qid) with
    | none => (.notFound, d)
    | some q =>
      match writeQuotes d (setStatusFirst qid st now quotes) with
      | (true, d') => (.updated { q with status := st, updatedAt := now }, d')
      | (false, d') => (.writeError, d')
  else
    (.invalidStatus, d)

/-- Response of `DELETE /api/quotes/:id`. -/
inductive DeleteResp where
  | notFound                 -- 404
  | deleted                  -- 200
  | writeError               -- 500
  deriving Repr, DecidableEq

/-- `quotes.splice(quoteIndex, 1)` after `findIndex`
(`server.js:320,329`): drop the first record whose id matches. -/
def removeFirst (qid : String) : List Quote → List Quote
  | [] => []
  | q :: qs => if q.id == qid then qs else q :: removeFirst qid qs

/-- `app.delete('/api/quotes/:id')` (`server.js:318-342`). -/
def deleteQuote (d : Disk) (qid : String) : DeleteResp × Disk :=
  let quotes := readQuotes d
  if (quotes.find? (fun q => q.id == qid)).isSome then
    match writeQuotes d (removeFirst qid quotes) with
    | (true, d') => (.deleted, d')
    | (false, d') => (.writeError, d')
  else
    (.notFound, d)

/-- `new Date(a[sortBy]).getTime()` on a record field: the two
timestamp fields hold date strings and parse to their instants; every
other (or unknown) field yields `NaN`, modelled as `none`.  (String
fields such as `name` hold validated non-date text.) -/
def sortKey (q : Quote) (field : String) : Option Int :=
  if field == "createdAt" then some q.createdAt
  else if field == "updatedAt" then some q.updatedAt
  else none

/-- The comparator at `server.js:243-252`:
`new Date(bValue) - new Date(aValue)` for `desc`, the reverse for
`asc`.  A `NaN` result (either side unparseable) leaves the pair in
place under the engine's stable sort, which is the behaviour of a
comparator returning `0`. -/
def jsCmp (field ord : String) (a b : Quote) : Int :=
  match sortKey a field, sortKey b field with
  | some x, some y => if ord == "desc" then y - x else x - y
  | _, _ => 0

/-- The ordering the engine's stable sort realizes from the comparator:
`a` may stay before `b` iff the comparator does not demand a swap. -/
def sortLe (field ord : String) (a b : Quote) : Bool :=
  jsCmp field ord a b ≤ 0

/-- `filteredQuotes.sort(comparator)`: a stable sort by the comparator
(`server.js:243`). -/
def sortQuotes (field ord : String) (qs : List Quote) : List Quote :=
  qs.mergeSort (sortLe field ord)

/-- One equality filter of `app.get('/api/quotes')`
(`server.js:234-240`): applied only when the query value is present and
truthy and not the sentinel `"all"`. -/
def applyFilter (val : Option String) (field : Quote → String)
    (qs : List Quote) : List Quote :=
  match val with
  | some v => if v != "" && v != "all" then qs.filter (fun q => field q == v) else qs
  | none => qs

/-- `app.get('/api/quotes')` (`server.js:227-259`): read, filter by
status and projectType, sort.  `sortBy`/`order` default to
`createdAt`/`desc` when absent (the destructuring defaults at
`server.js:229`). -/
def listQuotes (d : Disk) (status projectType sortBy ord : Option String) :
    List Quote :=
  let quotes := readQuotes d
  let f1 := applyFilter status (fun q => q.status) quotes
  let f2 := applyFilter projectType (fun q => q.projectType) f1
  sortQuotes (sortBy.getD "createdAt") (ord.getD "desc") f2

/-- One bucket of `app.get('/api/stats')` (`server.js:350-355`):
`quotes.filter(q => q.status === st).length`. -/
def statusCount (d : Disk) (st : String) : Nat :=
  ((readQuotes d).filter (fun q => q.status == st)).length

/-- `stats.total` (`server.js:349`): `quotes.length`. -/
def statsTotal (d : Disk) : Nat :=
  (readQuotes d).length

/-- The store states reachable by sequences of the mutating operations
from the initialized empty file (`server.js:112-114`), under any
environment of read/write faults. -/
inductive Reachable : Disk → Prop where
  | init (rf wf : Bool) : Reachable ⟨[], rf, wf⟩
  | create {d} (isEmail : String → Bool) (normEmail : String → String)
      (isMobilePhone : String → Bool) (s : Submission) (newId : String)
      (now : Nat) :
      Reachable d → Reachable (postQuote isEmail normEmail isMobilePhone d s newId now).2
  | update {d} (qid st : String) (now : Nat) :
      Reachable d → Reachable (updateStatus d qid st now).2
  | delete {d} (qid : String) :
      Reachable d → Reachable (deleteQuote d qid).2
  | fault {d} (rf wf : Bool) :
      Reachable d → Reachable { d with readFails := rf, writeFails := wf }

/-- The field names of a stored record; a `sortBy` value outside this
list reads `undefined` off every record. -/
def quoteFields : List String :=
  ["id", "name", "email", "phone", "company", "projectType", "budget",
   "timeline", "description", "status", "createdAt", "updatedAt"]

/-- The constraint a provided filter value places on a record field:
absent, empty, or the `"all"` sentinel constrain nothing; any other
value is an equality test.  (This is the predicate the filter section
of `app.get('/api/quotes')` keeps.) -/
def filterPass (val : Option String) (fieldVal : String) : Bool :=
  match val with
  | some v => if v != "" && v != "all" then fieldVal == v else true
  | none => true

/-- Everything `PATCH /api/quotes/:id/status` must preserve about a
record it maps to: identity and contact/content fields — `createdAt`
included — are unchanged, and a record whose id is not the addressed
one is untouched entirely. -/
def frameRel (qid : String) (q q' : Quote) : Prop :=
  q'.id = q.id ∧ q'.name = q.name ∧ q'.email = q.email ∧ q'.phone = q.phone ∧
  q'.company = q.company ∧ q'.projectType = q.projectType ∧
  q'.budget = q.budget ∧ q'.timeline = q.timeline ∧
  q'.description = q.description ∧ q'.createdAt = q.createdAt ∧
  (q.id ≠ qid → q' = q)

/-- The data-model invariant that every stored status is one of the
closed enum values. -/
def statusValid (l : List Quote) : Prop :=
  ∀ q ∈ l, q.status ∈ validStatuses

/-- A concrete stored record used by witnesses. -/
def quoteA : Quote :=
  { id := "a", name := "Jane Roe", email := "j@x.com", phone := "1",
    company := "", projectType := "website", budget := "under-5k",
    timeline := "asap", description := "d", status := "new",
    createdAt := 3, updatedAt := 3 }

/-- A second concrete stored record used by witnesses. -/
def quoteB : Quote :=
  { id := "b", name := "Ann Poe", email := "a@x.com", phone := "2",
    company := "", projectType := "webapp", budget := "5k-10k",
    timeline := "asap", description := "e", status := "reviewed",
    createdAt := 5, updatedAt := 5 }

/-- A concrete valid submission used by witnesses. -/
def subJane : Submission :=
  { name := "Jane Roe", email := "jane@x.com", phone := "+15551234567",
    company := "", projectType := "website", budget := "under-5k",
    timeline := "flexible", description := "Need a brochure site now" }

/-! ## Basic lemmas about the store -/

theorem readQuotes_eq_content {d : Disk} (h : d.readFails = false) :
    readQuotes d = d.content := by
  simp [readQuotes, fsReadJson, h]

theorem readQuotes_of_fail {d : Disk} (h : d.readFails = true) :
    readQuotes d = [] := by
  simp [readQuotes, fsReadJson, h]

theorem readQuotes_sub_content (d : Disk) : ∀ q ∈ readQuotes d, q ∈ d.content := by
  intro q hq
  cases h : d.readFails with
  | true => rw [readQuotes_of_fail h] at hq; cases hq
  | false => rw [readQuotes_eq_content h] at hq; exact hq

theorem readQuotes_nonempty_readFails {d : Disk} {q : Quote}
    (h : q ∈ readQuotes d) : d.readFails = false := by
  cases hrf : d.readFails with
  | true => rw [readQuotes_of_fail hrf] at h; cases h
  | false => rfl

theorem writeQuotes_ok {d : Disk} (qs : List Quote) (h : d.writeFails = false) :
    writeQuotes d qs = (true, { d with content := qs }) := by
  simp [writeQuotes, h]

theorem writeQuotes_fail {d : Disk} (qs : List Quote) (h : d.writeFails = true) :
    writeQuotes d qs = (false, d) := by
  simp [writeQuotes, h]

theorem find?_id_append_first (qid : String) (pre : List Quote) (q : Quote)
    (post : List Quote) (hpre : ∀ p ∈ pre, p.id ≠ qid) (hq : q.id = qid) :
    (pre ++ q :: post).find? (fun x => x.id == qid) = some q := by
  induction pre with
  | nil => simp [List.find?, hq]
  | cons p ps ih =>
    have hp : p.id ≠ qid := hpre p (by simp)
    simp only [List.cons_append, List.find?]
    rw [show (p.id == qid) = false by simpa using hp]
    exact ih (fun r hr => hpre r (by simp [hr]))

/-! ## C8: `readQuotes` is total and returns `[]` on read failure -/

/-- **C8.** `readQuotes` (the store read used by every route) is a total
function into `List Quote` — it never propagates the underlying
exception — and whenever the underlying `readJsonSync` fails it returns
the empty collection; when it succeeds it returns the parsed content. -/
theorem readQuotes_total_never_throws (d : Disk) :
    (∀ e, fsReadJson d = .error e → readQuotes d = []) ∧
    (∀ qs, fsReadJson d = .ok qs → readQuotes d = qs) := by
  constructor
  · intro e he; simp [readQuotes, he]
  · intro qs hqs; simp [readQuotes, hqs]

/-- Witness for C8 at a concrete failing disk. -/
theorem readQuotes_total_never_throws_witness :
    readQuotes ⟨[], true, true⟩ = [] :=
  (readQuotes_total_never_throws ⟨[], true, true⟩).1 "read error" rfl

/-! ## C7: a storage write failure during Create leaves the store untouched -/

/-- **C7.** For every valid submission, if persisting the collection
fails during Create, the handler answers with the 500 storage-write
failure and the persisted store is exactly as before the call — the
record is not created, so `getQuote`/`listQuotes` on the resulting
store see the pre-call state. -/
theorem create_write_failure_store_unchanged
    (isEmail : String → Bool) (normEmail : String → String)
    (isMobilePhone : String → Bool) (d : Disk) (s : Submission)
    (newId : String) (now : Nat)
    (hval : validateQuote isEmail isMobilePhone s = [])
    (hwf : d.writeFails = true) :
    postQuote isEmail normEmail isMobilePhone d s newId now = (.writeError, d) := by
  simp only [postQuote, hval, List.isEmpty_nil, if_true,
    writeQuotes_fail _ hwf]

/-- Witness for C7: a concrete valid submission against a disk whose
write fails. -/
theorem create_write_failure_store_unchanged_witness :
    validateQuote (fun _ => true) (fun _ => true)
        ⟨"Jane Roe", "jane@x.com", "+15551234567", "", "website", "under-5k",
         "flexible", "Need a brochure site now"⟩ = [] ∧
    postQuote (fun _ => true) (fun e => e) (fun _ => true) ⟨[], false, true⟩
        ⟨"Jane Roe", "jane@x.com", "+15551234567", "", "website", "under-5k",
         "flexible", "Need a brochure site now"⟩ "id1" 7 =
      (.writeError, ⟨[], false, true⟩) :=
  ⟨by decide,
   create_write_failure_store_unchanged (fun _ => true) (fun e => e)
     (fun _ => true) ⟨[], false, true⟩ _ "id1" 7 (by decide) rfl⟩

/-! ## C10: any non-letter, non-whitespace character in the name is rejected -/

/-- **C10.** If the trimmed name contains any character that is neither
an ASCII letter nor (JS-regex) whitespace — a hyphen, apostrophe,
period, digit, … — then Create fails validation with an error naming
the `name` field and the store is left unchanged, regardless of the
name's length and of every other field. -/
theorem create_rejects_nonletter_name
    (isEmail : String → Bool) (normEmail : String → String)
    (isMobilePhone : String → Bool) (d : Disk) (s : Submission)
    (newId : String) (now : Nat) (c : Char)
    (hc : c ∈ (jsTrim s.name).data)
    (hbad : (c.isAlpha || jsWhitespace c) = false) :
    (validateQuote isEmail isMobilePhone s).any (fun v => v.field == "name") = true ∧
    postQuote isEmail normEmail isMobilePhone d s newId now =
      (.validationFailed (validateQuote isEmail isMobilePhone s), d) := by
  have hall : (jsTrim s.name).data.all (fun c => c.isAlpha || jsWhitespace c) = false := by
    rw [List.all_eq_false]
    exact ⟨c, hc, by simp [hbad]⟩
  have hchars : nameCharsOk s.name = false := by
    simp [nameCharsOk, hall]
  have hmem : (⟨"name", "Name can only contain letters and spaces"⟩ : Violation) ∈
      validateQuote isEmail isMobilePhone s := by
    simp [validateQuote, hchars]
  refine ⟨?_, ?_⟩
  · rw [List.any_eq_true]
    exact ⟨_, hmem, by simp⟩
  · have hne : (validateQuote isEmail isMobilePhone s).isEmpty = false := by
      cases hv : validateQuote isEmail isMobilePhone s with
      | nil => rw [hv] at hmem; cases hmem
      | cons a l => simp
    simp only [postQuote, hne, Bool.false_eq_true, if_false]

/-- Witness for C10: the name `"J. Doe"` has length 6 (within 2–100)
but contains `'.'`; Create rejects it and leaves the store unchanged. -/
theorem create_rejects_nonletter_name_witness :
    ('.' ∈ (jsTrim "J. Doe").data ∧ ('.'.isAlpha || jsWhitespace '.') = false ∧
     2 ≤ (jsTrim "J. Doe").length ∧ (jsTrim "J. Doe").length ≤ 100) ∧
    (validateQuote (fun _ => true) (fun _ => true)
        ⟨"J. Doe", "jane@x.com", "+15551234567", "", "website", "under-5k",
         "flexible", "Need a brochure site now"⟩).any
      (fun v => v.field == "name") = true ∧
    postQuote (fun _ => true) (fun e => e) (fun _ => true) ⟨[], false, false⟩
        ⟨"J. Doe", "jane@x.com", "+15551234567", "", "website", "under-5k",
         "flexible", "Need a brochure site now"⟩ "id1" 7 =
      (.validationFailed (validateQuote (fun _ => true) (fun _ => true)
        ⟨"J. Doe", "jane@x.com", "+15551234567", "", "website", "under-5k",
         "flexible", "Need a brochure site now"⟩), ⟨[], false, false⟩) :=
  ⟨by decide,
   create_rejects_nonletter_name (fun _ => true) (fun e => e) (fun _ => true)
     ⟨[], false, false⟩ _ "id1" 7 '.' (by decide) (by decide)⟩

/-! ## C1: Create followed by Get returns the submitted record -/

/-- **C1.** For every submission that passes validation (against working
storage, with a fresh server-assigned id), Create answers 201 with the
new id, and Get on that id returns a record whose `name`, `email`,
`phone`, `company`, `projectType`, `budget`, `timeline` and
`description` are exactly those of the validated (trimmed/normalized)
payload, and whose remaining fields are the server-assigned id,
`status = "new"`, and the `createdAt`/`updatedAt` stamps of the
request. -/
theorem create_then_get_roundtrip
    (isEmail : String → Bool) (normEmail : String → String)
    (isMobilePhone : String → Bool) (d : Disk) (s : Submission)
    (newId : String) (now : Nat)
    (hval : validateQuote isEmail isMobilePhone s = [])
    (hrf : d.readFails = false) (hwf : d.writeFails = false)
    (hfresh : ∀ q ∈ readQuotes d, q.id ≠ newId) :
    (postQuote isEmail normEmail isMobilePhone d s newId now).1 = .created newId ∧
    ∃ r, getQuote (postQuote isEmail normEmail isMobilePhone d s newId now).2 newId
          = some r ∧
      r.name = jsTrim s.name ∧ r.email = normEmail (jsTrim s.email) ∧
      r.phone = jsTrim s.phone ∧ r.company = jsTrim s.company ∧
      r.projectType = jsTrim s.projectType ∧ r.budget = jsTrim s.budget ∧
      r.timeline = jsTrim s.timeline ∧ r.description = jsTrim s.description ∧
      r.id = newId ∧ r.status = "new" ∧ r.createdAt = now ∧ r.updatedAt = now := by
  have hpost : postQuote isEmail normEmail isMobilePhone d s newId now =
      (.created newId,
       { d with content := readQuotes d ++ [mkQuote normEmail s newId now] }) := by
    simp only [postQuote, hval, List.isEmpty_nil, if_true, writeQuotes_ok _ hwf]
  refine ⟨by rw [hpost], mkQuote normEmail s newId now, ?_, ?_⟩
  · rw [hpost]
    have hrf' : ({ d with content := readQuotes d ++ [mkQuote normEmail s newId now] }
        : Disk).readFails = false := hrf
    rw [getQuote, readQuotes_eq_content hrf']
    exact find?_id_append_first newId (readQuotes d) _ [] hfresh rfl
  · refine ⟨rfl, rfl, rfl, ?_, rfl, rfl, rfl, rfl, rfl, rfl, rfl, rfl⟩
    by_cases h : jsTrim s.company = ""
    · simp [mkQuote, h]
    · simp [mkQuote, h]

/-- Witness for C1 at a concrete valid submission against the empty
store. -/
theorem create_then_get_roundtrip_witness :
    (postQuote (fun _ => true) (fun e => e) (fun _ => true) ⟨[], false, false⟩
        ⟨"Jane Roe", "jane@x.com", "+15551234567", "", "website", "under-5k",
         "flexible", "Need a brochure site now"⟩ "id1" 7).1 = .created "id1" ∧
    ∃ r, getQuote (postQuote (fun _ => true) (fun e => e) (fun _ => true)
          ⟨[], false, false⟩
          ⟨"Jane Roe", "jane@x.com", "+15551234567", "", "website", "under-5k",
           "flexible", "Need a brochure site now"⟩ "id1" 7).2 "id1" = some r ∧
      r.name = jsTrim "Jane Roe" ∧ r.email = (fun e => e) (jsTrim "jane@x.com") ∧
      r.phone = jsTrim "+15551234567" ∧ r.company = jsTrim "" ∧
      r.projectType = jsTrim "website" ∧ r.budget = jsTrim "under-5k" ∧
      r.timeline = jsTrim "flexible" ∧
      r.description = jsTrim "Need a brochure site now" ∧
      r.id = "id1" ∧ r.status = "new" ∧ r.createdAt = 7 ∧ r.updatedAt = 7 :=
  create_then_get_roundtrip (fun _ => true) (fun e => e) (fun _ => true)
    ⟨[], false, false⟩ _ "id1" 7 (by decide) rfl rfl
    (by simp [readQuotes, fsReadJson])

/-! ## C2: the UpdateStatus contract -/

theorem setStatusFirst_append (qid st : String) (now : Nat) (pre : List Quote)
    (q : Quote) (post : List Quote) (hpre : ∀ p ∈ pre, p.id ≠ qid)
    (hq : q.id = qid) :
    setStatusFirst qid st now (pre ++ q :: post) =
      pre ++ { q with status := st, updatedAt := now } :: post := by
  induction pre with
  | nil => simp [setStatusFirst, hq]
  | cons p ps ih =>
    have hp : (p.id == qid) = false := by
      simpa using hpre p (by simp)
    simp only [List.cons_append, setStatusFirst, hp, Bool.false_eq_true, if_false]
    exact congrArg (p :: ·) (ih (fun r hr => hpre r (by simp [hr])))

/-- **C2.** The status-update endpoint: (i) a `newStatus` outside the
closed enum yields the 400 `InvalidStatus` answer and the store —
every record in it, the addressed one included — is exactly as before;
(ii) a valid `newStatus` with an absent id yields `NotFound`, store
unchanged; (iii) a valid `newStatus` with a present id (and working
persistence) overwrites exactly `status` and `updatedAt` of the
addressed record, persists the collection, and returns the updated
record. -/
theorem updateStatus_contract (d : Disk) (qid st : String) (now : Nat) :
    (validStatuses.contains st = false →
      updateStatus d qid st now = (.invalidStatus, d)) ∧
    (validStatuses.contains st = true → (∀ q ∈ readQuotes d, q.id ≠ qid) →
      updateStatus d qid st now = (.notFound, d)) ∧
    (validStatuses.contains st = true → d.writeFails = false →
      ∀ pre q post, readQuotes d = pre ++ q :: post →
        (∀ p ∈ pre, p.id ≠ qid) → q.id = qid →
        updateStatus d qid st now =
          (.updated { q with status := st, updatedAt := now },
           { d with content :=
              pre ++ { q with status := st, updatedAt := now } :: post })) := by
  refine ⟨?_, ?_, ?_⟩
  · intro hst
    simp only [updateStatus, hst, Bool.false_eq_true, if_false]
  · intro hst habs
    have hfind : (readQuotes d).find? (fun q => q.id == qid) = none := by
      rw [List.find?_eq_none]
      intro q hq
      simpa using habs q hq
    simp only [updateStatus, hst, if_true, hfind]
  · intro hst hwf pre q post hsplit hpre hq
    have hfind : (readQuotes d).find? (fun x => x.id == qid) = some q := by
      rw [hsplit]; exact find?_id_append_first qid pre q post hpre hq
    have hset : setStatusFirst qid st now (readQuotes d) =
        pre ++ { q with status := st, updatedAt := now } :: post := by
      rw [hsplit]; exact setStatusFirst_append qid st now pre q post hpre hq
    simp only [updateStatus, hst, if_true, hfind, hset, writeQuotes_ok _ hwf]

/-- Witness for C2: its three branches at a concrete one-record store
(invalid `"archived"`, valid-but-absent id, and a real update). -/
theorem updateStatus_contract_witness :
    updateStatus ⟨[quoteA], false, false⟩ "a" "archived" 9 =
      (.invalidStatus, ⟨[quoteA], false, false⟩) ∧
    updateStatus ⟨[quoteA], false, false⟩ "zzz" "reviewed" 9 =
      (.notFound, ⟨[quoteA], false, false⟩) ∧
    updateStatus ⟨[quoteA], false, false⟩ "a" "reviewed" 9 =
      (.updated { quoteA with status := "reviewed", updatedAt := 9 },
       ⟨[{ quoteA with status := "reviewed", updatedAt := 9 }], false, false⟩) :=
  ⟨(updateStatus_contract _ "a" "archived" 9).1 (by decide),
   (updateStatus_contract _ "zzz" "reviewed" 9).2.1 (by decide)
     (by intro q hq; simp [readQuotes, fsReadJson] at hq; simp [hq, quoteA]),
   (updateStatus_contract _ "a" "reviewed" 9).2.2 (by decide) rfl
     [] quoteA [] (by simp [readQuotes, fsReadJson]) (by simp) rfl⟩

/-! ## C5: Delete is succeed-once, NotFound-after -/

theorem countP_removeFirst (x : String) (l : List Quote)
    (h : l.countP (fun q => q.id == x) = 1) :
    (removeFirst x l).countP (fun q => q.id == x) = 0 := by
  induction l with
  | nil => simp at h
  | cons q qs ih =>
    rw [List.countP_cons] at h
    by_cases hq : (q.id == x) = true
    · rw [if_pos hq] at h
      have h0 : qs.countP (fun q => q.id == x) = 0 := by omega
      simp [removeFirst, hq, h0]
    · have hq' : (q.id == x) = false := by simpa using hq
      simp only [hq', Bool.false_eq_true, if_false, Nat.add_zero] at h
      simp [removeFirst, hq', List.countP_cons, ih h]

/-- **C5.** For a store holding exactly one record with id `x` (the
documented unique-id invariant), calling Delete twice in a row succeeds
the first time — the record is removed and the collection persisted —
and answers `NotFound` the second time, the second call leaving the
store unchanged. -/
theorem delete_twice_idempotent (d : Disk) (x : String)
    (hcount : (readQuotes d).countP (fun q => q.id == x) = 1)
    (hwf : d.writeFails = false) :
    deleteQuote d x = (.deleted, { d with content := removeFirst x (readQuotes d) }) ∧
    getQuote (deleteQuote d x).2 x = none ∧
    deleteQuote (deleteQuote d x).2 x = (.notFound, (deleteQuote d x).2) := by
  have hex : ∃ q ∈ readQuotes d, (q.id == x) = true := by
    rw [← List.countP_pos_iff]; omega
  obtain ⟨q0, hq0, hq0x⟩ := hex
  have hrf : d.readFails = false := readQuotes_nonempty_readFails hq0
  have hsome : ((readQuotes d).find? (fun q => q.id == x)).isSome = true := by
    rw [List.find?_isSome]
    exact ⟨q0, hq0, hq0x⟩
  have hdel : deleteQuote d x =
      (.deleted, { d with content := removeFirst x (readQuotes d) }) := by
    simp only [deleteQuote, hsome, if_true, writeQuotes_ok _ hwf]
  have hread' : readQuotes (deleteQuote d x).2 = removeFirst x (readQuotes d) := by
    rw [hdel]
    exact readQuotes_eq_content hrf
  have hnone : (removeFirst x (readQuotes d)).find? (fun q => q.id == x) = none := by
    rw [List.find?_eq_none]
    intro q hq
    have := List.countP_eq_zero.mp (countP_removeFirst x _ hcount) q hq
    simpa using this
  refine ⟨hdel, ?_, ?_⟩
  · rw [getQuote, hread', hnone]
  · generalize (deleteQuote d x).2 = d1 at hread'
    simp [deleteQuote, hread', hnone]

/-- Witness for C5 at a concrete two-record store. -/
theorem delete_twice_idempotent_witness :
    deleteQuote ⟨[quoteA, quoteB], false, false⟩ "a" =
      (.deleted, { Disk.mk [quoteA, quoteB] false false with
        content := removeFirst "a" (readQuotes ⟨[quoteA, quoteB], false, false⟩) }) ∧
    getQuote (deleteQuote ⟨[quoteA, quoteB], false, false⟩ "a").2 "a" = none ∧
    deleteQuote (deleteQuote ⟨[quoteA, quoteB], false, false⟩ "a").2 "a" =
      (.notFound, (deleteQuote ⟨[quoteA, quoteB], false, false⟩ "a").2) :=
  delete_twice_idempotent ⟨[quoteA, quoteB], false, false⟩ "a" (by decide) rfl

/-! ## C9: `createdAt` never changes; UpdateStatus touches only
status/updatedAt of the addressed record -/

theorem frameRel_refl (qid : String) (q : Quote) : frameRel qid q q :=
  ⟨rfl, rfl, rfl, rfl, rfl, rfl, rfl, rfl, rfl, rfl, fun _ => rfl⟩

theorem forall₂_frameRel_refl (qid : String) :
    ∀ l : List Quote, List.Forall₂ (frameRel qid) l l
  | [] => .nil
  | q :: qs => .cons (frameRel_refl qid q) (forall₂_frameRel_refl qid qs)

theorem setStatusFirst_frame (qid st : String) (now : Nat) :
    ∀ l : List Quote, List.Forall₂ (frameRel qid) l (setStatusFirst qid st now l)
  | [] => by rw [setStatusFirst]; exact .nil
  | q :: qs => by
    by_cases hq : (q.id == qid) = true
    · rw [setStatusFirst, if_pos hq]
      refine .cons ⟨rfl, rfl, rfl, rfl, rfl, rfl, rfl, rfl, rfl, rfl, ?_⟩
        (forall₂_frameRel_refl qid qs)
      intro hne
      exact absurd (by simpa using hq) hne
    · have hq' : (q.id == qid) = false := by simpa using hq
      rw [setStatusFirst, if_neg (by simp [hq'])]
      exact .cons (frameRel_refl qid q) (setStatusFirst_frame qid st now qs)

theorem removeFirst_sublist (qid : String) :
    ∀ l : List Quote, (removeFirst qid l).Sublist l
  | [] => .slnil
  | q :: qs => by
    by_cases hq : (q.id == qid) = true
    · rw [removeFirst, if_pos hq]
      exact List.sublist_cons_self q qs
    · rw [removeFirst, if_neg (by simpa using hq)]
      exact .cons₂ q (removeFirst_sublist qid qs)

/-- **C9.** A record's `createdAt` (indeed every field other than
`status`/`updatedAt`) survives every operation after its creation:
UpdateStatus relates the store before and after by `frameRel` — the
addressed record keeps all fields but `status`/`updatedAt`, every other
record is untouched; Create keeps every existing record; Delete only
removes records (the surviving store is a sublist of the old one). -/
theorem createdAt_never_changes (d : Disk) :
    (∀ qid st now, List.Forall₂ (frameRel qid) (readQuotes d)
        (readQuotes (updateStatus d qid st now).2)) ∧
    (∀ (isEmail : String → Bool) (normEmail : String → String)
        (isMobilePhone : String → Bool) (s : Submission) (newId : String)
        (now : Nat), ∀ q ∈ readQuotes d,
        q ∈ readQuotes (postQuote isEmail normEmail isMobilePhone d s newId now).2) ∧
    (∀ qid, (readQuotes (deleteQuote d qid).2).Sublist (readQuotes d)) := by
  refine ⟨?_, ?_, ?_⟩
  · intro qid st now
    by_cases hst : validStatuses.contains st = true
    · cases hfind : (readQuotes d).find? (fun q => q.id == qid) with
      | none =>
        simp only [updateStatus, hst, if_true, hfind]
        exact forall₂_frameRel_refl qid _
      | some q =>
        have hmem : q ∈ readQuotes d := List.mem_of_find?_eq_some hfind
        have hrf : d.readFails = false := readQuotes_nonempty_readFails hmem
        cases hwf : d.writeFails with
        | true =>
          simp only [updateStatus, hst, if_true, hfind, writeQuotes_fail _ hwf]
          exact forall₂_frameRel_refl qid _
        | false =>
          simp only [updateStatus, hst, if_true, hfind, writeQuotes_ok _ hwf]
          rw [show readQuotes { d with
              content := setStatusFirst qid st now (readQuotes d) }
              = setStatusFirst qid st now (readQuotes d) from readQuotes_eq_content hrf]
          exact setStatusFirst_frame qid st now _
    · have hst' : validStatuses.contains st = false := by simpa using hst
      simp only [updateStatus, hst', Bool.false_eq_true, if_false]
      exact forall₂_frameRel_refl qid _
  · intro iE nE iM s nid now q hq
    have hrf : d.readFails = false := readQuotes_nonempty_readFails hq
    cases hv : (validateQuote iE iM s).isEmpty with
    | false =>
      simp only [postQuote, hv, Bool.false_eq_true, if_false]
      exact hq
    | true =>
      cases hwf : d.writeFails with
      | true =>
        simp only [postQuote, hv, if_true, writeQuotes_fail _ hwf]
        exact hq
      | false =>
        simp only [postQuote, hv, if_true, writeQuotes_ok _ hwf]
        rw [show readQuotes { d with
            content := readQuotes d ++ [mkQuote nE s nid now] }
            = readQuotes d ++ [mkQuote nE s nid now] from readQuotes_eq_content hrf]
        exact List.mem_append_left _ hq
  · intro qid
    cases hfind : ((readQuotes d).find? (fun q => q.id == qid)).isSome with
    | false =>
      simp only [deleteQuote, hfind, Bool.false_eq_true, if_false]
      exact List.Sublist.refl _
    | true =>
      obtain ⟨q, hfq⟩ := Option.isSome_iff_exists.mp hfind
      have hmem : q ∈ readQuotes d := List.mem_of_find?_eq_some hfq
      have hrf : d.readFails = false := readQuotes_nonempty_readFails hmem
      cases hwf : d.writeFails with
      | true =>
        simp only [deleteQuote, hfind, if_true, writeQuotes_fail _ hwf]
        exact List.Sublist.refl _
      | false =>
        simp only [deleteQuote, hfind, if_true, writeQuotes_ok _ hwf]
        rw [show readQuotes { d with content := removeFirst qid (readQuotes d) }
            = removeFirst qid (readQuotes d) from readQuotes_eq_content hrf]
        exact removeFirst_sublist qid _

/-- Witness for C9: its Create clause applied to a concrete record in a
concrete store. -/
theorem createdAt_never_changes_witness :
    quoteA ∈ readQuotes ⟨[quoteA], false, false⟩ ∧
    quoteA ∈ readQuotes (postQuote (fun _ => true) (fun e => e) (fun _ => true)
      ⟨[quoteA], false, false⟩ subJane "id1" 7).2 :=
  ⟨by simp [readQuotes, fsReadJson],
   (createdAt_never_changes ⟨[quoteA], false, false⟩).2.1 (fun _ => true)
     (fun e => e) (fun _ => true) subJane "id1" 7 quoteA
     (by simp [readQuotes, fsReadJson])⟩

/-! ## C6: the list filters are exact AND-conjoined equality filters -/

theorem applyFilter_eq_filter (val : Option String) (f : Quote → String)
    (qs : List Quote) :
    applyFilter val f qs = qs.filter (fun q => filterPass val (f q)) := by
  cases val with
  | none => simp [applyFilter, filterPass]
  | some v =>
    by_cases hv : (v != "" && v != "all") = true
    · simp [applyFilter, filterPass, hv]
    · have hv' : (v != "" && v != "all") = false := by simpa using hv
      simp [applyFilter, filterPass, hv']

theorem sortQuotes_perm (field ord : String) (qs : List Quote) :
    (sortQuotes field ord qs).Perm qs :=
  List.mergeSort_perm qs _

/-- **C6.** For every collection and every choice of query parameters,
the list endpoint returns exactly the records whose fields equal every
provided filter value (status and projectType conjoined): a record
passes iff each given filter matches it, with an omitted, empty, or
`"all"` value imposing no constraint — the result is a permutation
(reordering only by the sort step) of that exact filtered subset. -/
theorem list_filters_exact (d : Disk)
    (status projectType sortBy ord : Option String) :
    (listQuotes d status projectType sortBy ord).Perm
      ((readQuotes d).filter
        (fun q => filterPass status q.status && filterPass projectType q.projectType)) := by
  unfold listQuotes
  refine (sortQuotes_perm _ _ _).trans ?_
  rw [applyFilter_eq_filter, applyFilter_eq_filter, List.filter_filter]
  rw [List.filter_congr (fun q _ => Bool.and_comm _ _)]

/-! ## C3: default sort is createdAt descending; unknown sort field is
insertion order -/

theorem pairwise_of_all {α : Type} {R : α → α → Prop} (h : ∀ a b, R a b) :
    ∀ l : List α, l.Pairwise R
  | [] => .nil
  | a :: l => .cons (fun b _ => h a b) (pairwise_of_all h l)

theorem jsCmp_createdAt_desc (a b : Quote) :
    jsCmp "createdAt" "desc" a b = (b.createdAt : Int) - (a.createdAt : Int) := rfl

theorem sortKey_unknown {f : String} (hf : f ∉ quoteFields) (q : Quote) :
    sortKey q f = none := by
  have h1 : f ≠ "createdAt" := by
    intro h; exact hf (by rw [h]; simp [quoteFields])
  have h2 : f ≠ "updatedAt" := by
    intro h; exact hf (by rw [h]; simp [quoteFields])
  simp [sortKey, h1, h2]

theorem jsCmp_unknown {f : String} (hf : f ∉ quoteFields) (ord : String)
    (a b : Quote) : jsCmp f ord a b = 0 := by
  simp [jsCmp, sortKey_unknown hf]

/-- **C3.** With no explicit sort parameters the list endpoint returns
the stored records ordered by `createdAt` descending (a permutation of
the store, pairwise non-increasing in `createdAt`); with a `sortBy`
that is not a field of the records, `new Date(undefined)` is `NaN` on
both sides of the comparator and the stable sort leaves the records in
insertion order. -/
theorem list_default_sort_and_unknown_field (d : Disk) :
    ((listQuotes d none none none none).Perm (readQuotes d) ∧
     (listQuotes d none none none none).Pairwise
       (fun a b => b.createdAt ≤ a.createdAt)) ∧
    (∀ f ord, f ∉ quoteFields →
      listQuotes d none none (some f) ord = readQuotes d) := by
  constructor
  · constructor
    · exact List.mergeSort_perm (readQuotes d) _
    · have t1 : ∀ a b c : Quote, sortLe "createdAt" "desc" a b →
          sortLe "createdAt" "desc" b c → sortLe "createdAt" "desc" a c := by
        intro a b c hab hbc
        simp only [sortLe, decide_eq_true_eq, jsCmp_createdAt_desc] at *
        omega
      have t2 : ∀ a b : Quote,
          sortLe "createdAt" "desc" a b || sortLe "createdAt" "desc" b a := by
        intro a b
        simp only [sortLe, Bool.or_eq_true, decide_eq_true_eq,
          jsCmp_createdAt_desc]
        omega
      have hs := List.sorted_mergeSort t1 t2 (readQuotes d)
      refine List.Pairwise.imp ?_ hs
      intro a b hab
      simp only [sortLe, decide_eq_true_eq, jsCmp_createdAt_desc] at hab
      omega
  · intro f ord hf
    show List.mergeSort (readQuotes d) _ = readQuotes d
    apply List.mergeSort_of_sorted
    apply pairwise_of_all
    intro a b
    simp only [sortLe, Option.getD_some, jsCmp_unknown hf]
    decide

/-- Witness for C3's unknown-field clause at a concrete store and field. -/
theorem list_default_sort_and_unknown_field_witness :
    listQuotes ⟨[quoteA, quoteB], false, false⟩ none none (some "foo") none =
      readQuotes ⟨[quoteA, quoteB], false, false⟩ :=
  (list_default_sort_and_unknown_field ⟨[quoteA, quoteB], false, false⟩).2
    "foo" none (by simp [quoteFields])

/-! ## C4: the stats total equals the sum of the six per-status counts -/

theorem mem_setStatusFirst (qid st : String) (now : Nat) :
    ∀ (l : List Quote) (q : Quote), q ∈ setStatusFirst qid st now l →
      q.status = st ∨ q ∈ l
  | [], q, hq => by rw [setStatusFirst] at hq; cases hq
  | p :: ps, q, hq => by
    rw [setStatusFirst] at hq
    by_cases hp : (p.id == qid) = true
    · rw [if_pos hp] at hq
      rcases List.mem_cons.mp hq with h1 | h1
      · exact .inl (by rw [h1])
      · exact .inr (List.mem_cons_of_mem _ h1)
    · rw [if_neg hp] at hq
      rcases List.mem_cons.mp hq with h1 | h1
      · exact .inr (by rw [h1]; exact List.mem_cons_self _ _)
      · rcases mem_setStatusFirst qid st now ps q h1 with h2 | h2
        · exact .inl h2
        · exact .inr (List.mem_cons_of_mem _ h2)

theorem reachable_statusValid {d : Disk} (h : Reachable d) :
    statusValid d.content := by
  induction h with
  | init rf wf => exact fun q hq => absurd hq (List.not_mem_nil q)
  | create iE nE iM s nid now _ ih =>
    cases hv : (validateQuote iE iM s).isEmpty with
    | false =>
      simp only [postQuote, hv, Bool.false_eq_true, if_false]
      exact ih
    | true =>
      rename_i d _
      cases hwf : d.writeFails with
      | true =>
        simp only [postQuote, hv, if_true, writeQuotes_fail _ hwf]
        exact ih
      | false =>
        simp only [postQuote, hv, if_true, writeQuotes_ok _ hwf]
        intro q hq
        rcases List.mem_append.mp hq with h1 | h1
        · exact ih q (readQuotes_sub_content d q h1)
        · rw [List.mem_singleton.mp h1]
          simp [mkQuote, validStatuses]
  | update qid st now _ ih =>
    rename_i d _
    by_cases hst : validStatuses.contains st = true
    · cases hfind : (readQuotes d).find? (fun q => q.id == qid) with
      | none =>
        simp only [updateStatus, hst, if_true, hfind]
        exact ih
      | some q0 =>
        cases hwf : d.writeFails with
        | true =>
          simp only [updateStatus, hst, if_true, hfind, writeQuotes_fail _ hwf]
          exact ih
        | false =>
          simp only [updateStatus, hst, if_true, hfind, writeQuotes_ok _ hwf]
          intro q hq
          rcases mem_setStatusFirst qid st now _ q hq with h1 | h1
          · rw [h1]
            simpa using hst
          · exact ih q (readQuotes_sub_content d q h1)
    · have hst' : validStatuses.contains st = false := by simpa using hst
      simp only [updateStatus, hst', Bool.false_eq_true, if_false]
      exact ih
  | delete qid _ ih =>
    rename_i d _
    cases hfind : ((readQuotes d).find? (fun q => q.id == qid)).isSome with
    | false =>
      simp only [deleteQuote, hfind, Bool.false_eq_true, if_false]
      exact ih
    | true =>
      cases hwf : d.writeFails with
      | true =>
        simp only [deleteQuote, hfind, if_true, writeQuotes_fail _ hwf]
        exact ih
      | false =>
        simp only [deleteQuote, hfind, if_true, writeQuotes_ok _ hwf]
        intro q hq
        exact ih q (readQuotes_sub_content d q ((removeFirst_sublist qid _).mem hq))
  | fault rf wf _ ih =>
    exact ih

theorem length_eq_sum_status_counts :
    ∀ l : List Quote, statusValid l →
      l.length = (l.filter (fun q => q.status == "new")).length +
        (l.filter (fun q => q.status == "reviewed")).length +
        (l.filter (fun q => q.status == "contacted")).length +
        (l.filter (fun q => q.status == "quoted")).length +
        (l.filter (fun q => q.status == "accepted")).length +
        (l.filter (fun q => q.status == "rejected")).length
  | [], _ => rfl
  | q :: l, h => by
    have hl := length_eq_sum_status_counts l
      (fun r hr => h r (List.mem_cons_of_mem _ hr))
    have hq : q.status ∈ validStatuses := h q (List.mem_cons_self _ _)
    simp only [validStatuses, List.mem_cons, List.not_mem_nil, or_false] at hq
    rcases hq with h1 | h1 | h1 | h1 | h1 | h1 <;>
      · simp [List.filter_cons, h1, hl]
        omega

/-- **C4.** In every store state reachable by Create/UpdateStatus/Delete
sequences (under any read/write-fault environment), the stats total
equals the sum of the six per-status counts, and equals the length of
the unfiltered list answer. -/
theorem stats_total_consistent (d : Disk) (h : Reachable d) :
    statsTotal d = statusCount d "new" + statusCount d "reviewed" +
      statusCount d "contacted" + statusCount d "quoted" +
      statusCount d "accepted" + statusCount d "rejected" ∧
    statsTotal d = (listQuotes d none none none none).length := by
  have hv : statusValid (readQuotes d) := fun q hq =>
    reachable_statusValid h q (readQuotes_sub_content d q hq)
  constructor
  · exact length_eq_sum_status_counts (readQuotes d) hv
  · show (readQuotes d).length = (List.mergeSort (readQuotes d) _).length
    rw [List.length_mergeSort]

/-- Witness for C4 at the initialized empty store. -/
theorem stats_total_consistent_witness :
    statsTotal ⟨[], false, false⟩ =
      statusCount ⟨[], false, false⟩ "new" +
      statusCount ⟨[], false, false⟩ "reviewed" +
      statusCount ⟨[], false, false⟩ "contacted" +
      statusCount ⟨[], false, false⟩ "quoted" +
      statusCount ⟨[], false, false⟩ "accepted" +
      statusCount ⟨[], false, false⟩ "rejected" ∧
    statsTotal ⟨[], false, false⟩ =
      (listQuotes ⟨[], false, false⟩ none none none none).length :=
  stats_total_consistent ⟨[], false, false⟩ (Reachable.init false false)
